import Mathlib

/-!
Verification development for the partial-fetch binary dataset reader
(`repro/api_smoketest.py`): the Range Transport (`http_request`) and the
AQED Decoder (`parse_aqed_header`, `fetch_aqed_sample_vectors`).

Modelling conventions:
* A byte buffer is a `List Nat`; reads go through `List.getD _ _ 0` and are
  reduced `% 256`, matching Python's `bytes` (each element is in `[0,256)`).
* `struct.unpack_from("<I", buf, off)` becomes `readU32`, the unsigned
  little-endian 32-bit read.
* A little-endian IEEE-754 float32 is modelled by its 32-bit pattern
  (a `Nat < 2^32`); `struct.unpack_from("<f", buf, off)` is `readU32`.
  Bit-exact float equality is then equality of the patterns.
* Python exceptions become `Except SmokeError`; `ValueError`s raised for
  unacceptable HTTP status / short bodies are `SmokeError.FetchError`, those
  raised for container-format violations are `SmokeError.FormatError`,
  following the spec's error taxonomy (spec section 7).
* The network is an oracle `transport : RangeRequest → HttpResult`
  (the composition of `http_request` with the server's behaviour for the
  fixed `data_url`); `fetch_aqed_sample_vectors` additionally returns the
  list of range requests it issued, in order, so that request-counting and
  sequencing properties can be stated.
-/

set_option maxRecDepth 100000

/-- One HTTP byte-range request `bytes=<start>-<end>` (inclusive). -/
structure RangeRequest where
  rangeStart : Nat
  rangeEnd : Nat
deriving DecidableEq, Repr

/-- Result of one HTTP exchange, as built by `http_request`
(`status`, lower-cased `headers`, raw `body`; the measured latency is real
time and is not modelled). -/
structure HttpResult where
  status : Nat
  headers : List (String × String)
  body : List Nat
deriving DecidableEq, Repr

/-- What the server did for one request, as observed by `http_request`:
either `urllib.request.urlopen` returned a response object, or it raised
`urllib.error.HTTPError` carrying a status code, headers and a body. -/
inductive ServerOutcome where
  | ok (status : Nat) (headers : List (String × String)) (body : List Nat)
  | httpError (code : Nat) (headers : List (String × String)) (body : List Nat)
deriving DecidableEq, Repr

/-- The status code the server sent. -/
def ServerOutcome.sentStatus : ServerOutcome → Nat
  | .ok s _ _ => s
  | .httpError c _ _ => c

/-- The body the server sent. -/
def ServerOutcome.sentBody : ServerOutcome → List Nat
  | .ok _ _ b => b
  | .httpError _ _ b => b

/-- The headers the server sent. -/
def ServerOutcome.sentHeaders : ServerOutcome → List (String × String)
  | .ok _ h _ => h
  | .httpError _ h _ => h

/-- Model of `http_request` (Range Transport): issues one GET with a `Range` header
and returns whatever status, headers and body the server sent — the
`try/except urllib.error.HTTPError` wrapper turns HTTP error statuses into
an ordinary `HttpResult` instead of an exception, and no check of the body
against the requested range is performed.  `rangeReq` is the requested
byte range carried in the `Range` header; `resp` is what the server did in
reaction.  The range is sent but never inspected on the result path. -/
def http_request (rangeReq : RangeRequest) (resp : ServerOutcome) : HttpResult :=
  match resp with
  | .ok s h b => { status := s, headers := h, body := b }
  | .httpError c h b => { status := c, headers := h, body := b }

/-- Errors of the sampling path.  All are Python `ValueError`s in the
source; the constructor records the spec's taxonomy: `FetchError` for
unacceptable status / insufficient bytes, `FormatError` for container
violations. -/
inductive SmokeError where
  | FetchError (msg : String)
  | FormatError (msg : String)
deriving DecidableEq, Repr

/-- Message `f"Unsupported AQED version: {version}"`. -/
def versionMsg (v : Nat) : String := s!"Unsupported AQED version: {v}"

/-- Message `f"Invalid AQED header: n={n}, dOrig={d_orig}"`. -/
def headerFieldsMsg (n d : Nat) : String := s!"Invalid AQED header: n={n}, dOrig={d}"

/-- Message `f"Invalid AQED flags: no embeddings present (flags={flags})"`. -/
def flagsMsg (f : Nat) : String := s!"Invalid AQED flags: no embeddings present (flags={f})"

/-- Message `f"Dataset header fetch failed (HTTP {head.status})"`. -/
def headerStatusMsg (s : Nat) : String := s!"Dataset header fetch failed (HTTP {s})"

/-- Message `f"Dataset range fetch failed (HTTP {chunk.status})"`. -/
def chunkStatusMsg (s : Nat) : String := s!"Dataset range fetch failed (HTTP {s})"

/-- Message `f"Dataset range truncated (need {byte_len}, got {len(chunk.body)})"`. -/
def truncatedMsg (need got : Nat) : String := s!"Dataset range truncated (need {need}, got {got})"

/-- Unsigned little-endian 32-bit read at `off`
(`struct.unpack_from("<I", buf, off)[0]`). -/
def readU32 (buf : List Nat) (off : Nat) : Nat :=
  buf.getD off 0 % 256 + 256 * (buf.getD (off + 1) 0 % 256) +
    65536 * (buf.getD (off + 2) 0 % 256) + 16777216 * (buf.getD (off + 3) 0 % 256)

/-- The 4 magic bytes `b"AQED"`. -/
def aqedMagic : List Nat := [65, 81, 69, 68]

/-- Model of `parse_aqed_header`: validates a (at least) 64-byte AQED v1 header and
returns `(header_size, n, d_orig, flags)`.  Layout (little-endian u32):
offset 0 magic `"AQED"`, 4 version (must be 1), 8 `n`, 12 `dOrig`,
16 `dAqea`, 20 `flags` (bit 0 = has_original, bit 1 = has_aqea).
Note the guard `n <= 0 or d_orig <= 0` on unsigned values only rejects 0,
and the locally computed `dim` is only used for the flags check — it is not
returned. -/
def parse_aqed_header (buf : List Nat) : Except SmokeError (Nat × Nat × Nat × Nat) :=
  if buf.length < 64 then
    .error (.FormatError "AQED header requires at least 64 bytes for safe detection")
  else if buf.take 4 ≠ aqedMagic then
    .error (.FormatError "Invalid AQED: missing magic bytes")
  else
    let version := readU32 buf 4
    if version ≠ 1 then .error (.FormatError (versionMsg version))
    else
      let n := readU32 buf 8
      let d_orig := readU32 buf 12
      let d_aqea := readU32 buf 16
      let flags := readU32 buf 20
      if n ≤ 0 ∨ d_orig ≤ 0 then
        .error (.FormatError (headerFieldsMsg n d_orig))
      else
        let dim := if flags.testBit 0 then d_orig else if flags.testBit 1 then d_aqea else 0
        if dim ≤ 0 then
          .error (.FormatError (flagsMsg flags))
        else
          .ok (64, n, d_orig, flags)

/-- The clamp `take = min(max(1, n_vectors), total_n)` (line 163): the caller's
requested count clamped to at least 1 and at most the declared count.
The requested count is a Python `int`, so it is an `Int` here. -/
def takeCount (n_vectors : Int) (total_n : Nat) : Nat :=
  min (max 1 n_vectors).toNat total_n

/-- One decoded record: `dim` consecutive little-endian float32 values
(bit patterns) starting at `off`
(`struct.unpack_from("<" + "f"*dim, buf, off)`). -/
def readRecord (buf : List Nat) (off : Nat) : Nat → List Nat
  | 0 => []
  | d + 1 => readU32 buf off :: readRecord buf (off + 4) d

/-- The decode loop of `fetch_aqed_sample_vectors` (lines 172-177): decode
`t` consecutive records of `dim` float32 values each, starting at `off`,
advancing the cursor by `dim * 4` bytes per record. -/
def decodeRecords (buf : List Nat) (off dim : Nat) : Nat → List (List Nat)
  | 0 => []
  | t + 1 => readRecord buf off dim :: decodeRecords buf (off + dim * 4) dim t

/-- The fixed header request `bytes=0-63`. -/
def headerRangeReq : RangeRequest := ⟨0, 63⟩

/-- Model of `fetch_aqed_sample_vectors`: the two-round-trip sampling operation.
`transport` abstracts `http_request` applied to the fixed `data_url`
(the URL and timeout are constant through one call and absorbed into it).
Returns the result of the call paired with the list of range requests
issued, in order. -/
def fetch_aqed_sample_vectors (transport : RangeRequest → HttpResult) (n_vectors : Int) :
    Except SmokeError (Nat × List (List Nat)) × List RangeRequest :=
  let head := transport headerRangeReq
  if head.status = 200 ∨ head.status = 206 then
    if head.body.length < 64 then
      (.error (.FetchError "Dataset header too small"), [headerRangeReq])
    else
      match parse_aqed_header (head.body.take 64) with
      | .error e => (.error e, [headerRangeReq])
      | .ok (header_size, total_n, d_orig, flags) =>
        if flags.testBit 0 then
          let take := takeCount n_vectors total_n
          let byte_len := header_size + take * d_orig * 4
          let chunkReq : RangeRequest := ⟨0, byte_len - 1⟩
          let chunk := transport chunkReq
          if chunk.status = 200 ∨ chunk.status = 206 then
            if chunk.body.length < byte_len then
              (.error (.FetchError (truncatedMsg byte_len chunk.body.length)),
                [headerRangeReq, chunkReq])
            else
              (.ok (d_orig, decodeRecords chunk.body header_size d_orig take),
                [headerRangeReq, chunkReq])
          else
            (.error (.FetchError (chunkStatusMsg chunk.status)),
              [headerRangeReq, chunkReq])
        else
          (.error (.FormatError "Dataset AQED does not contain original embeddings section"),
            [headerRangeReq])
  else
    (.error (.FetchError (headerStatusMsg head.status)), [headerRangeReq])

deriving instance DecidableEq for Except

/-- Little-endian byte encoding of a 32-bit value; building block of the
synthetic buffers of the round-trip property (inverse of `readU32` on the
wire layout "contiguous f32 LE arrays"). -/
def u32ToBytes (x : Nat) : List Nat :=
  [x % 256, x / 256 % 256, x / 65536 % 256, x / 16777216 % 256]

/-- Encode one record: each float32 (bit pattern) as 4 little-endian bytes,
concatenated in order. -/
def encodeRecord (v : List Nat) : List Nat := (v.map u32ToBytes).flatten

/-- Encode a list of records contiguously, in record order, as laid out on
the wire immediately after the header. -/
def encodeVectors (vs : List (List Nat)) : List Nat := (vs.map encodeRecord).flatten

/-- A 64-byte AQED v1 header: n = 100, dOrig = 8, dAqea = 8, flags = 1. -/
def demoHeader : List Nat :=
  [65, 81, 69, 68, 1, 0, 0, 0, 100, 0, 0, 0, 8, 0, 0, 0, 8, 0, 0, 0, 1, 0, 0, 0] ++
    List.replicate 40 0

/-- Eight records of dimension 8; entry values are the float32 bit
patterns 0, 1, ..., 63. -/
def demoVectors : List (List Nat) :=
  (List.range 8).map (fun i => (List.range 8).map (fun j => 8 * i + j))

/-- Transport serving `demoHeader` on the header request and the full
2112-byte prefix (header + 8 records) otherwise. -/
def demoTransport : RangeRequest → HttpResult := fun r =>
  if r = headerRangeReq then ⟨206, [], demoHeader⟩
  else ⟨206, [], demoHeader ++ encodeVectors demoVectors⟩

/-- Same statuses and prefix data as `demoTransport` but with extra
trailing bytes on both responses, as a server returning more than the
requested range might produce. -/
def demoTransportPadded : RangeRequest → HttpResult := fun r =>
  if r = headerRangeReq then ⟨206, [], demoHeader ++ [7, 7, 7]⟩
  else ⟨206, [], demoHeader ++ encodeVectors demoVectors ++ [9, 9]⟩

/-- A header identical to `demoHeader` except `flags = 2` (only the
alternate/AQEA section present) and `dAqea = 16`. -/
def bit1OnlyHeader : List Nat :=
  [65, 81, 69, 68, 1, 0, 0, 0, 100, 0, 0, 0, 8, 0, 0, 0, 16, 0, 0, 0, 2, 0, 0, 0] ++
    List.replicate 40 0

def bit1OnlyTransport : RangeRequest → HttpResult := fun r =>
  if r = headerRangeReq then ⟨206, [], bit1OnlyHeader⟩ else ⟨206, [], []⟩

/-- A header whose magic, version, n and dOrig are all valid but whose
flags word is 0: no embedding section present. -/
def noSectionHeader : List Nat :=
  [65, 81, 69, 68, 1, 0, 0, 0, 100, 0, 0, 0, 8, 0, 0, 0, 8, 0, 0, 0, 0, 0, 0, 0] ++
    List.replicate 40 0

def noSectionTransport : RangeRequest → HttpResult := fun r =>
  if r = headerRangeReq then ⟨206, [], noSectionHeader⟩ else ⟨206, [], []⟩

/-- A server that answers every request with HTTP 500 and an empty body. -/
def error500Transport : RangeRequest → HttpResult := fun _ => ⟨500, [], []⟩

/-- A server that serves a valid header but only 100 bytes on the payload
request: the transfer is truncated. -/
def truncatedTransport : RangeRequest → HttpResult := fun r =>
  if r = headerRangeReq then ⟨206, [], demoHeader⟩
  else ⟨200, [], List.replicate 100 0⟩

/-- A header whose n field is `00 00 00 80` little-endian: n = 2^31, a
byte pattern whose high bit is set. -/
def highBitHeader : List Nat :=
  [65, 81, 69, 68, 1, 0, 0, 0, 0, 0, 0, 128, 8, 0, 0, 0, 8, 0, 0, 0, 1, 0, 0, 0] ++
    List.replicate 40 0

/-- A `readU32` never exceeds `2^32 - 1`: the four byte reads are reduced
mod 256, so the decoded field is an unsigned 32-bit value. -/
theorem readU32_lt (buf : List Nat) (off : Nat) : readU32 buf off < 4294967296 := by
  unfold readU32
  omega

theorem getD_append_add (a b : List Nat) (i : Nat) :
    (a ++ b).getD (a.length + i) 0 = b.getD i 0 := by
  rw [List.getD_append_right a b 0 (a.length + i) (Nat.le_add_right _ _)]
  simp

theorem readU32_append_add (a b : List Nat) (off : Nat) :
    readU32 (a ++ b) (a.length + off) = readU32 b off := by
  unfold readU32
  have h1 : a.length + off + 1 = a.length + (off + 1) := by omega
  have h2 : a.length + off + 2 = a.length + (off + 2) := by omega
  have h3 : a.length + off + 3 = a.length + (off + 3) := by omega
  rw [h1, h2, h3, getD_append_add, getD_append_add, getD_append_add, getD_append_add]

theorem readRecord_append_add (a b : List Nat) (off : Nat) (d : Nat) :
    readRecord (a ++ b) (a.length + off) d = readRecord b off d := by
  induction d generalizing off with
  | zero => rfl
  | succ d ih =>
    simp only [readRecord, readU32_append_add]
    have h4 : a.length + off + 4 = a.length + (off + 4) := by omega
    rw [h4, ih]

theorem readRecord_length (buf : List Nat) (off d : Nat) :
    (readRecord buf off d).length = d := by
  induction d generalizing off with
  | zero => rfl
  | succ d ih => simp [readRecord, ih]

theorem decodeRecords_length (buf : List Nat) (off dim t : Nat) :
    (decodeRecords buf off dim t).length = t := by
  induction t generalizing off with
  | zero => rfl
  | succ t ih => simp [decodeRecords, ih]

theorem decodeRecords_mem_length (buf : List Nat) (off dim t : Nat) :
    ∀ v ∈ decodeRecords buf off dim t, v.length = dim := by
  induction t generalizing off with
  | zero => intro v hv; simp [decodeRecords] at hv
  | succ t ih =>
    intro v hv
    simp only [decodeRecords, List.mem_cons] at hv
    rcases hv with rfl | hv
    · exact readRecord_length buf off dim
    · exact ih (off + dim * 4) v hv

theorem encodeRecord_length (v : List Nat) : (encodeRecord v).length = 4 * v.length := by
  induction v with
  | nil => rfl
  | cons x v ih =>
    simp only [encodeRecord, List.map_cons, List.flatten_cons, List.length_append,
      List.length_cons] at ih ⊢
    simp [u32ToBytes, ih]
    omega

theorem readU32_u32ToBytes (x : Nat) (hx : x < 4294967296) (rest : List Nat) :
    readU32 (u32ToBytes x ++ rest) 0 = x := by
  simp only [readU32, u32ToBytes, List.cons_append, List.nil_append,
    List.getD_cons_zero, List.getD_cons_succ]
  omega

theorem readRecord_encodeRecord (v : List Nat) (hv : ∀ x ∈ v, x < 4294967296)
    (rest : List Nat) : readRecord (encodeRecord v ++ rest) 0 v.length = v := by
  induction v generalizing rest with
  | nil => rfl
  | cons x v ih =>
    have hx : x < 4294967296 := hv x (List.mem_cons_self x v)
    have hv' : ∀ y ∈ v, y < 4294967296 := fun y hy => hv y (List.mem_cons_of_mem x hy)
    have he : encodeRecord (x :: v) = u32ToBytes x ++ encodeRecord v := by
      simp [encodeRecord]
    rw [he, List.append_assoc]
    simp only [List.length_cons, readRecord]
    rw [readU32_u32ToBytes x hx]
    have h4 : (0 : Nat) + 4 = (u32ToBytes x).length + 0 := rfl
    rw [h4, readRecord_append_add, ih hv']

theorem decodeRecords_append_encode (d : Nat) (vs : List (List Nat))
    (hlen : ∀ v ∈ vs, v.length = d) (hval : ∀ v ∈ vs, ∀ x ∈ v, x < 4294967296)
    (pre rest : List Nat) :
    decodeRecords (pre ++ (encodeVectors vs ++ rest)) pre.length d vs.length = vs := by
  induction vs generalizing pre with
  | nil => rfl
  | cons v vs ih =>
    have hvd : v.length = d := hlen v (List.mem_cons_self v vs)
    have he : encodeVectors (v :: vs) = encodeRecord v ++ encodeVectors vs := by
      simp [encodeVectors]
    simp only [List.length_cons, decodeRecords]
    have hhead : readRecord (pre ++ (encodeVectors (v :: vs) ++ rest)) pre.length d = v := by
      have h0 : pre.length = pre.length + 0 := rfl
      rw [h0, readRecord_append_add, he, List.append_assoc, ← hvd]
      exact readRecord_encodeRecord v (hval v (List.mem_cons_self v vs)) _
    have htail : decodeRecords (pre ++ (encodeVectors (v :: vs) ++ rest))
        (pre.length + d * 4) d vs.length = vs := by
      have hb : pre ++ (encodeVectors (v :: vs) ++ rest)
          = (pre ++ encodeRecord v) ++ (encodeVectors vs ++ rest) := by
        simp [he, List.append_assoc]
      have ho : pre.length + d * 4 = (pre ++ encodeRecord v).length := by
        simp [List.length_append, encodeRecord_length, hvd]
        omega
      rw [hb, ho]
      exact ih (fun w hw => hlen w (List.mem_cons_of_mem v hw))
        (fun w hw => hval w (List.mem_cons_of_mem v hw)) _
    rw [hhead, htail]

theorem getD_take_eq (l : List Nat) (k i : Nat) (h : i < k) :
    (l.take k).getD i 0 = l.getD i 0 := by
  induction k generalizing l i with
  | zero => omega
  | succ k ih =>
    cases l with
    | nil => simp
    | cons x xs =>
      cases i with
      | zero => rfl
      | succ i =>
        simp only [List.take_succ_cons, List.getD_cons_succ]
        exact ih xs i (by omega)

theorem getD_eq_of_take_eq (l l' : List Nat) (k i : Nat) (ht : l.take k = l'.take k)
    (h : i < k) : l.getD i 0 = l'.getD i 0 := by
  rw [← getD_take_eq l k i h, ← getD_take_eq l' k i h, ht]

theorem readU32_congr_take (l l' : List Nat) (k off : Nat) (ht : l.take k = l'.take k)
    (h : off + 4 ≤ k) : readU32 l off = readU32 l' off := by
  unfold readU32
  rw [getD_eq_of_take_eq l l' k off ht (by omega),
    getD_eq_of_take_eq l l' k (off + 1) ht (by omega),
    getD_eq_of_take_eq l l' k (off + 2) ht (by omega),
    getD_eq_of_take_eq l l' k (off + 3) ht (by omega)]

theorem readRecord_congr_take (l l' : List Nat) (k : Nat) (ht : l.take k = l'.take k) :
    ∀ d off, off + 4 * d ≤ k → readRecord l off d = readRecord l' off d := by
  intro d
  induction d with
  | zero => intro off _; rfl
  | succ d ih =>
    intro off h
    simp only [readRecord]
    rw [readU32_congr_take l l' k off ht (by omega), ih (off + 4) (by omega)]

theorem decodeRecords_congr_take (l l' : List Nat) (k dim : Nat)
    (ht : l.take k = l'.take k) :
    ∀ t off, off + t * (dim * 4) ≤ k → decodeRecords l off dim t = decodeRecords l' off dim t := by
  intro t
  induction t with
  | zero => intro off _; rfl
  | succ t ih =>
    intro off h
    rw [Nat.succ_mul] at h
    simp only [decodeRecords]
    rw [readRecord_congr_take l l' k ht dim off (by omega), ih (off + dim * 4) (by omega)]

theorem length_lt_iff_of_take_eq (l l' : List Nat) (k : Nat) (ht : l.take k = l'.take k) :
    l.length < k ↔ l'.length < k := by
  have hl := congrArg List.length ht
  simp only [List.length_take] at hl
  omega

theorem eq_of_take_eq_of_length_lt (l l' : List Nat) (k : Nat) (ht : l.take k = l'.take k)
    (h : l.length < k) : l = l' := by
  have h' : l'.length < k := (length_lt_iff_of_take_eq l l' k ht).mp h
  rw [← List.take_of_length_le (Nat.le_of_lt h), ht, List.take_of_length_le (Nat.le_of_lt h')]

/-- Reads of the first 20+4 header bytes see the same values through the
`buf[:64]` slice as through the full body. -/
theorem readU32_take64 (buf : List Nat) (off : Nat) (h : off + 4 ≤ 64) :
    readU32 (buf.take 64) off = readU32 buf off := by
  refine readU32_congr_take _ _ 64 off ?_ h
  simp [List.take_take]

/-- Every `parse_aqed_header` failure is a `FormatError`. -/
theorem parse_error_isFormatError (buf : List Nat) (e : SmokeError)
    (h : parse_aqed_header buf = .error e) : ∃ m, e = .FormatError m := by
  simp only [parse_aqed_header] at h
  repeat' split at h
  all_goals (try cases h)
  all_goals exact ⟨_, rfl⟩

/-- A successful parse always reports `header_size = 64` and returns the
raw `n`, `dOrig`, `flags` fields read at offsets 8, 12, 20, with the
validation facts they passed. -/
theorem parse_ok_fields (buf : List Nat) (hs n d f : Nat)
    (h : parse_aqed_header buf = .ok (hs, n, d, f)) :
    hs = 64 ∧ n = readU32 buf 8 ∧ d = readU32 buf 12 ∧ f = readU32 buf 20 ∧
      ¬ buf.length < 64 ∧ buf.take 4 = aqedMagic ∧ readU32 buf 4 = 1 ∧ n ≠ 0 ∧ d ≠ 0 := by
  simp only [parse_aqed_header] at h
  split at h
  · cases h
  · split at h
    · cases h
    · split at h
      · cases h
      · split at h
        · cases h
        · rename_i h1 h2 h3 h4
          by_cases h5 : (if (readU32 buf 20).testBit 0 then readU32 buf 12
              else if (readU32 buf 20).testBit 1 then readU32 buf 16 else 0) ≤ 0
          · rw [if_pos h5] at h; cases h
          · rw [if_neg h5] at h
            injection h with h
            injection h with e1 h
            injection h with e2 h
            injection h with e3 e4
            subst e1; subst e2; subst e3; subst e4
            exact ⟨rfl, rfl, rfl, rfl, h1, not_ne_iff.mp h2, not_ne_iff.mp h3, by omega, by omega⟩

/-- If the constraints of every validation step hold, `parse_aqed_header`
succeeds and returns the raw fields. -/
theorem parse_ok_of_valid (buf : List Nat) (h64 : ¬ buf.length < 64)
    (hmagic : buf.take 4 = aqedMagic) (hver : readU32 buf 4 = 1)
    (hn : readU32 buf 8 ≠ 0) (hd : readU32 buf 12 ≠ 0)
    (hdim : (readU32 buf 20).testBit 0 ∨
      ((readU32 buf 20).testBit 1 ∧ readU32 buf 16 ≠ 0)) :
    parse_aqed_header buf = .ok (64, readU32 buf 8, readU32 buf 12, readU32 buf 20) := by
  have hdimpos : ¬((if (readU32 buf 20).testBit 0 then readU32 buf 12
      else if (readU32 buf 20).testBit 1 then readU32 buf 16 else 0) ≤ 0) := by
    by_cases hb0 : (readU32 buf 20).testBit 0
    · rw [if_pos hb0]; omega
    · rcases hdim with hb | ⟨hb1, h16⟩
      · exact absurd hb hb0
      · rw [if_neg hb0, if_pos hb1]; omega
  simp only [parse_aqed_header]
  rw [if_neg h64, if_neg (by simp [hmagic]), if_neg (by simp [hver]), if_neg (by omega),
    if_neg hdimpos]

theorem fetch_eq_status_bad (T : RangeRequest → HttpResult) (rc : Int)
    (h : ¬((T headerRangeReq).status = 200 ∨ (T headerRangeReq).status = 206)) :
    fetch_aqed_sample_vectors T rc =
      (.error (.FetchError (headerStatusMsg (T headerRangeReq).status)), [headerRangeReq]) := by
  simp only [fetch_aqed_sample_vectors]
  rw [if_neg h]

theorem fetch_eq_header_short (T : RangeRequest → HttpResult) (rc : Int)
    (hstat : (T headerRangeReq).status = 200 ∨ (T headerRangeReq).status = 206)
    (hlen : (T headerRangeReq).body.length < 64) :
    fetch_aqed_sample_vectors T rc =
      (.error (.FetchError "Dataset header too small"), [headerRangeReq]) := by
  simp only [fetch_aqed_sample_vectors]
  rw [if_pos hstat, if_pos hlen]

theorem fetch_eq_parse_error (T : RangeRequest → HttpResult) (rc : Int) (e : SmokeError)
    (hstat : (T headerRangeReq).status = 200 ∨ (T headerRangeReq).status = 206)
    (hlen : ¬ (T headerRangeReq).body.length < 64)
    (hp : parse_aqed_header ((T headerRangeReq).body.take 64) = .error e) :
    fetch_aqed_sample_vectors T rc = (.error e, [headerRangeReq]) := by
  simp only [fetch_aqed_sample_vectors]
  rw [if_pos hstat, if_neg hlen, hp]

theorem fetch_eq_no_original (T : RangeRequest → HttpResult) (rc : Int) (hs n d f : Nat)
    (hstat : (T headerRangeReq).status = 200 ∨ (T headerRangeReq).status = 206)
    (hlen : ¬ (T headerRangeReq).body.length < 64)
    (hp : parse_aqed_header ((T headerRangeReq).body.take 64) = .ok (hs, n, d, f))
    (hbit : f.testBit 0 = false) :
    fetch_aqed_sample_vectors T rc =
      (.error (.FormatError "Dataset AQED does not contain original embeddings section"),
        [headerRangeReq]) := by
  simp only [fetch_aqed_sample_vectors]
  rw [if_pos hstat, if_neg hlen, hp]
  simp [hbit]

theorem fetch_eq_chunk_status_bad (T : RangeRequest → HttpResult) (rc : Int) (hs n d f : Nat)
    (hstat : (T headerRangeReq).status = 200 ∨ (T headerRangeReq).status = 206)
    (hlen : ¬ (T headerRangeReq).body.length < 64)
    (hp : parse_aqed_header ((T headerRangeReq).body.take 64) = .ok (hs, n, d, f))
    (hbit : f.testBit 0 = true)
    (hcs : ¬((T ⟨0, hs + takeCount rc n * d * 4 - 1⟩).status = 200 ∨
      (T ⟨0, hs + takeCount rc n * d * 4 - 1⟩).status = 206)) :
    fetch_aqed_sample_vectors T rc =
      (.error (.FetchError (chunkStatusMsg (T ⟨0, hs + takeCount rc n * d * 4 - 1⟩).status)),
        [headerRangeReq, ⟨0, hs + takeCount rc n * d * 4 - 1⟩]) := by
  simp only [fetch_aqed_sample_vectors]
  rw [if_pos hstat, if_neg hlen, hp]
  simp only [hbit, if_true]
  rw [if_neg hcs]

theorem fetch_eq_truncated (T : RangeRequest → HttpResult) (rc : Int) (hs n d f : Nat)
    (hstat : (T headerRangeReq).status = 200 ∨ (T headerRangeReq).status = 206)
    (hlen : ¬ (T headerRangeReq).body.length < 64)
    (hp : parse_aqed_header ((T headerRangeReq).body.take 64) = .ok (hs, n, d, f))
    (hbit : f.testBit 0 = true)
    (hcs : (T ⟨0, hs + takeCount rc n * d * 4 - 1⟩).status = 200 ∨
      (T ⟨0, hs + takeCount rc n * d * 4 - 1⟩).status = 206)
    (hcl : (T ⟨0, hs + takeCount rc n * d * 4 - 1⟩).body.length < hs + takeCount rc n * d * 4) :
    fetch_aqed_sample_vectors T rc =
      (.error (.FetchError (truncatedMsg (hs + takeCount rc n * d * 4)
          (T ⟨0, hs + takeCount rc n * d * 4 - 1⟩).body.length)),
        [headerRangeReq, ⟨0, hs + takeCount rc n * d * 4 - 1⟩]) := by
  simp only [fetch_aqed_sample_vectors]
  rw [if_pos hstat, if_neg hlen, hp]
  simp only [hbit, if_true]
  rw [if_pos hcs, if_pos hcl]

theorem fetch_eq_success (T : RangeRequest → HttpResult) (rc : Int) (hs n d f : Nat)
    (hstat : (T headerRangeReq).status = 200 ∨ (T headerRangeReq).status = 206)
    (hlen : ¬ (T headerRangeReq).body.length < 64)
    (hp : parse_aqed_header ((T headerRangeReq).body.take 64) = .ok (hs, n, d, f))
    (hbit : f.testBit 0 = true)
    (hcs : (T ⟨0, hs + takeCount rc n * d * 4 - 1⟩).status = 200 ∨
      (T ⟨0, hs + takeCount rc n * d * 4 - 1⟩).status = 206)
    (hcl : ¬ (T ⟨0, hs + takeCount rc n * d * 4 - 1⟩).body.length <
      hs + takeCount rc n * d * 4) :
    fetch_aqed_sample_vectors T rc =
      (.ok (d, decodeRecords (T ⟨0, hs + takeCount rc n * d * 4 - 1⟩).body hs d
          (takeCount rc n)),
        [headerRangeReq, ⟨0, hs + takeCount rc n * d * 4 - 1⟩]) := by
  simp only [fetch_aqed_sample_vectors]
  rw [if_pos hstat, if_neg hlen, hp]
  simp only [hbit, if_true]
  rw [if_pos hcs, if_neg hcl]

/-- Exhaustive case analysis of one sampling call: exactly one of the seven
linear stages of the decoder's state machine decides the outcome. -/
theorem fetch_outcome_cases (T : RangeRequest → HttpResult) (rc : Int) :
    (¬((T headerRangeReq).status = 200 ∨ (T headerRangeReq).status = 206) ∧
      fetch_aqed_sample_vectors T rc =
        (.error (.FetchError (headerStatusMsg (T headerRangeReq).status)), [headerRangeReq])) ∨
    (((T headerRangeReq).status = 200 ∨ (T headerRangeReq).status = 206) ∧
      (T headerRangeReq).body.length < 64 ∧
      fetch_aqed_sample_vectors T rc =
        (.error (.FetchError "Dataset header too small"), [headerRangeReq])) ∨
    (((T headerRangeReq).status = 200 ∨ (T headerRangeReq).status = 206) ∧
      ¬ (T headerRangeReq).body.length < 64 ∧
      (∃ m, parse_aqed_header ((T headerRangeReq).body.take 64) = .error (.FormatError m) ∧
        fetch_aqed_sample_vectors T rc = (.error (.FormatError m), [headerRangeReq]))) ∨
    (((T headerRangeReq).status = 200 ∨ (T headerRangeReq).status = 206) ∧
      ¬ (T headerRangeReq).body.length < 64 ∧
      (∃ n d f, parse_aqed_header ((T headerRangeReq).body.take 64) = .ok (64, n, d, f) ∧
        f.testBit 0 = false ∧
        fetch_aqed_sample_vectors T rc =
          (.error (.FormatError "Dataset AQED does not contain original embeddings section"),
            [headerRangeReq]))) ∨
    (((T headerRangeReq).status = 200 ∨ (T headerRangeReq).status = 206) ∧
      ¬ (T headerRangeReq).body.length < 64 ∧
      (∃ n d f, parse_aqed_header ((T headerRangeReq).body.take 64) = .ok (64, n, d, f) ∧
        f.testBit 0 = true ∧
        ¬((T ⟨0, 64 + takeCount rc n * d * 4 - 1⟩).status = 200 ∨
          (T ⟨0, 64 + takeCount rc n * d * 4 - 1⟩).status = 206) ∧
        fetch_aqed_sample_vectors T rc =
          (.error (.FetchError
              (chunkStatusMsg (T ⟨0, 64 + takeCount rc n * d * 4 - 1⟩).status)),
            [headerRangeReq, ⟨0, 64 + takeCount rc n * d * 4 - 1⟩]))) ∨
    (((T headerRangeReq).status = 200 ∨ (T headerRangeReq).status = 206) ∧
      ¬ (T headerRangeReq).body.length < 64 ∧
      (∃ n d f, parse_aqed_header ((T headerRangeReq).body.take 64) = .ok (64, n, d, f) ∧
        f.testBit 0 = true ∧
        ((T ⟨0, 64 + takeCount rc n * d * 4 - 1⟩).status = 200 ∨
          (T ⟨0, 64 + takeCount rc n * d * 4 - 1⟩).status = 206) ∧
        (T ⟨0, 64 + takeCount rc n * d * 4 - 1⟩).body.length < 64 + takeCount rc n * d * 4 ∧
        fetch_aqed_sample_vectors T rc =
          (.error (.FetchError (truncatedMsg (64 + takeCount rc n * d * 4)
              (T ⟨0, 64 + takeCount rc n * d * 4 - 1⟩).body.length)),
            [headerRangeReq, ⟨0, 64 + takeCount rc n * d * 4 - 1⟩]))) ∨
    (((T headerRangeReq).status = 200 ∨ (T headerRangeReq).status = 206) ∧
      ¬ (T headerRangeReq).body.length < 64 ∧
      (∃ n d f, parse_aqed_header ((T headerRangeReq).body.take 64) = .ok (64, n, d, f) ∧
        f.testBit 0 = true ∧
        ((T ⟨0, 64 + takeCount rc n * d * 4 - 1⟩).status = 200 ∨
          (T ⟨0, 64 + takeCount rc n * d * 4 - 1⟩).status = 206) ∧
        ¬ (T ⟨0, 64 + takeCount rc n * d * 4 - 1⟩).body.length <
          64 + takeCount rc n * d * 4 ∧
        fetch_aqed_sample_vectors T rc =
          (.ok (d, decodeRecords (T ⟨0, 64 + takeCount rc n * d * 4 - 1⟩).body 64 d
              (takeCount rc n)),
            [headerRangeReq, ⟨0, 64 + takeCount rc n * d * 4 - 1⟩]))) := by
  by_cases h1 : (T headerRangeReq).status = 200 ∨ (T headerRangeReq).status = 206
  · by_cases h2 : (T headerRangeReq).body.length < 64
    · exact .inr (.inl ⟨h1, h2, fetch_eq_header_short T rc h1 h2⟩)
    · cases hp : parse_aqed_header ((T headerRangeReq).body.take 64) with
      | error e =>
        obtain ⟨m, rfl⟩ := parse_error_isFormatError _ e hp
        exact .inr (.inr (.inl ⟨h1, h2, m, rfl, fetch_eq_parse_error T rc _ h1 h2 hp⟩))
      | ok v =>
        obtain ⟨hs, n, d, f⟩ := v
        obtain ⟨rfl, -, -, -, -, -, -, -, -⟩ := parse_ok_fields _ hs n d f hp
        by_cases h3 : f.testBit 0
        · by_cases h4 : (T ⟨0, 64 + takeCount rc n * d * 4 - 1⟩).status = 200 ∨
            (T ⟨0, 64 + takeCount rc n * d * 4 - 1⟩).status = 206
          · by_cases h5 : (T ⟨0, 64 + takeCount rc n * d * 4 - 1⟩).body.length <
              64 + takeCount rc n * d * 4
            · exact .inr (.inr (.inr (.inr (.inr (.inl ⟨h1, h2, n, d, f, rfl, h3, h4, h5,
                fetch_eq_truncated T rc 64 n d f h1 h2 hp h3 h4 h5⟩)))))
            · exact .inr (.inr (.inr (.inr (.inr (.inr ⟨h1, h2, n, d, f, rfl, h3, h4, h5,
                fetch_eq_success T rc 64 n d f h1 h2 hp h3 h4 h5⟩)))))
          · exact .inr (.inr (.inr (.inr (.inl ⟨h1, h2, n, d, f, rfl, h3, h4,
              fetch_eq_chunk_status_bad T rc 64 n d f h1 h2 hp h3 h4⟩))))
        · exact .inr (.inr (.inr (.inl ⟨h1, h2, n, d, f, rfl, Bool.not_eq_true _ ▸
            (eq_false_of_ne_true (fun hb => h3 hb) : f.testBit 0 = false),
            fetch_eq_no_original T rc 64 n d f h1 h2 hp
              (eq_false_of_ne_true (fun hb => h3 hb))⟩)))
  · exact .inl ⟨h1, fetch_eq_status_bad T rc h1⟩

/-- Inversion of a successful sampling call: the header parse succeeded
with `header_size = 64` and dimension `dim` (= `dOrig`), bit 0 of flags was
set, and the vectors are exactly the decode of the second response's body. -/
theorem fetch_ok_inv (T : RangeRequest → HttpResult) (rc : Int) (dim : Nat)
    (vs : List (List Nat))
    (hok : (fetch_aqed_sample_vectors T rc).1 = .ok (dim, vs)) :
    ∃ n f, parse_aqed_header ((T headerRangeReq).body.take 64) = .ok (64, n, dim, f) ∧
      f.testBit 0 = true ∧
      vs = decodeRecords (T ⟨0, 64 + takeCount rc n * dim * 4 - 1⟩).body 64 dim
        (takeCount rc n) := by
  rcases fetch_outcome_cases T rc with ⟨_, heq⟩ | ⟨_, _, heq⟩ | ⟨_, _, m, _, heq⟩ |
    ⟨_, _, n, d, f, hp, hbf, heq⟩ | ⟨_, _, n, d, f, hp, hb, hcs, heq⟩ |
    ⟨_, _, n, d, f, hp, hb, hcs, hcl, heq⟩ | ⟨_, _, n, d, f, hp, hb, hcs, hcl, heq⟩
  · rw [heq] at hok; simp at hok
  · rw [heq] at hok; simp at hok
  · rw [heq] at hok; simp at hok
  · rw [heq] at hok; simp at hok
  · rw [heq] at hok; simp at hok
  · rw [heq] at hok; simp at hok
  · rw [heq] at hok
    simp only [Except.ok.injEq, Prod.mk.injEq] at hok
    obtain ⟨rfl, rfl⟩ := hok
    exact ⟨n, f, hp, hb, rfl⟩

/-- Claim C7: for every server response — an ordinary response or an
HTTP-error response of any status — the transport returns exactly the
status, body and headers the server sent (HTTP error statuses are caught
and returned, not raised), and the result is independent of the requested
byte range: no validation of the body length against the range happens in
the transport. -/
theorem http_request_passthrough :
    ∀ (r r' : RangeRequest) (resp : ServerOutcome),
      (http_request r resp).status = resp.sentStatus ∧
      (http_request r resp).body = resp.sentBody ∧
      (http_request r resp).headers = resp.sentHeaders ∧
      http_request r resp = http_request r' resp := by
  intro r r' resp
  cases resp <;> exact ⟨rfl, rfl, rfl, rfl⟩

/-- Claim C1 counterexample: a 64-byte header passing basic validation with
only bit 1 of flags set (`flags = 2`, `dAqea = 16 > 0`) parses fine, but
the sampling call does not proceed with effective dimension `dAqea`: it
fails with a `FormatError` saying the original-embeddings section is
missing. -/
theorem aqed_bit1_only_rejected_cex :
    parse_aqed_header bit1OnlyHeader = .ok (64, 100, 8, 2) ∧
    readU32 bit1OnlyHeader 16 = 16 ∧
    (fetch_aqed_sample_vectors bit1OnlyTransport 8).1 =
      .error (.FormatError "Dataset AQED does not contain original embeddings section") := by
  exact ⟨by decide, by decide, by decide⟩

/-- Claim C1 (amended): for every 64-byte header passing basic validation,
if bit 0 of flags is set the sampling operation uses effective dimension
`dOrig` (the field at offset 12; any successful result's dimension equals
it); if bit 0 is clear — even when bit 1 is set and selects a positive
`dAqea` — the call does not proceed but fails with the FormatError
"Dataset AQED does not contain original embeddings section"; and if
neither bit is set the header parse itself fails with the FormatError
"no embeddings present". -/
theorem aqed_effective_dimension_selection :
    (∀ (T : RangeRequest → HttpResult) (rc : Int) (n d f : Nat),
      parse_aqed_header ((T headerRangeReq).body.take 64) = .ok (64, n, d, f) →
      f.testBit 0 = true →
      (d = readU32 ((T headerRangeReq).body.take 64) 12 ∧
        ∀ dim vs, (fetch_aqed_sample_vectors T rc).1 = .ok (dim, vs) → dim = d)) ∧
    (∀ (T : RangeRequest → HttpResult) (rc : Int) (n d f : Nat),
      ((T headerRangeReq).status = 200 ∨ (T headerRangeReq).status = 206) →
      ¬ (T headerRangeReq).body.length < 64 →
      parse_aqed_header ((T headerRangeReq).body.take 64) = .ok (64, n, d, f) →
      f.testBit 0 = false →
      (fetch_aqed_sample_vectors T rc).1 =
        .error (.FormatError "Dataset AQED does not contain original embeddings section")) ∧
    (∀ buf : List Nat, ¬ buf.length < 64 → buf.take 4 = aqedMagic →
      readU32 buf 4 = 1 → readU32 buf 8 ≠ 0 → readU32 buf 12 ≠ 0 →
      (readU32 buf 20).testBit 0 = false → (readU32 buf 20).testBit 1 = false →
      parse_aqed_header buf = .error (.FormatError (flagsMsg (readU32 buf 20)))) := by
  refine ⟨?_, ?_, ?_⟩
  · intro T rc n d f hp hbit
    refine ⟨(parse_ok_fields _ 64 n d f hp).2.2.1, ?_⟩
    intro dim vs hok
    obtain ⟨n', f', hp', _, _⟩ := fetch_ok_inv T rc dim vs hok
    have := hp.symm.trans hp'
    injection this with this
    injection this with e1 this
    injection this with e2 this
    injection this with e3 e4
    exact e3.symm
  · intro T rc n d f hstat hlen hp hbit
    rw [fetch_eq_no_original T rc 64 n d f hstat hlen hp hbit]
  · intro buf h64 hmagic hver hn hd hb0 hb1
    have hdim0 : (if (readU32 buf 20).testBit 0 then readU32 buf 12
        else if (readU32 buf 20).testBit 1 then readU32 buf 16 else 0) ≤ 0 := by
      rw [if_neg (by simp [hb0]), if_neg (by simp [hb1])]
    simp only [parse_aqed_header]
    rw [if_neg h64, if_neg (by simp [hmagic]), if_neg (by simp [hver]), if_neg (by omega),
      if_pos hdim0]

/-- Claim C1 witness: the three legs of the amended claim at concrete
headers (`flags = 1`, `flags = 2`, `flags = 0`). -/
theorem aqed_effective_dimension_selection_witness :
    (8 = readU32 ((demoTransport headerRangeReq).body.take 64) 12 ∧
      ∀ dim vs, (fetch_aqed_sample_vectors demoTransport 8).1 = .ok (dim, vs) → dim = 8) ∧
    (fetch_aqed_sample_vectors bit1OnlyTransport 8).1 =
      .error (.FormatError "Dataset AQED does not contain original embeddings section") ∧
    parse_aqed_header noSectionHeader =
      .error (.FormatError (flagsMsg (readU32 noSectionHeader 20))) := by
  refine ⟨aqed_effective_dimension_selection.1 demoTransport 8 100 8 1 (by decide) (by decide),
    aqed_effective_dimension_selection.2.1 bit1OnlyTransport 8 100 8 2 (by decide) (by decide)
      (by decide) (by decide),
    aqed_effective_dimension_selection.2.2 noSectionHeader (by decide) (by decide) (by decide)
      (by decide) (by decide) (by decide) (by decide)⟩

/-- Claim C2: after a successful header parse (with bit 0 set, positive
take and dimension), the second range request is exactly
`bytes=0-(64 + take*dimension*4 - 1)` — the zero-based inclusive payload
end — and any successful decode yields exactly `take` vectors, each of
length equal to the parsed dimension. -/
theorem aqed_payload_range_arithmetic (T : RangeRequest → HttpResult) (rc : Int)
    (n d f : Nat)
    (hstat : (T headerRangeReq).status = 200 ∨ (T headerRangeReq).status = 206)
    (hlen : ¬ (T headerRangeReq).body.length < 64)
    (hp : parse_aqed_header ((T headerRangeReq).body.take 64) = .ok (64, n, d, f))
    (hbit : f.testBit 0 = true)
    (htake : 0 < takeCount rc n) (hd : 0 < d) :
    (fetch_aqed_sample_vectors T rc).2 =
      [headerRangeReq, ⟨0, 64 + takeCount rc n * d * 4 - 1⟩] ∧
    (∀ dim vs, (fetch_aqed_sample_vectors T rc).1 = .ok (dim, vs) →
      dim = d ∧ vs.length = takeCount rc n ∧ ∀ v ∈ vs, v.length = d) := by
  constructor
  · by_cases hcs : (T ⟨0, 64 + takeCount rc n * d * 4 - 1⟩).status = 200 ∨
      (T ⟨0, 64 + takeCount rc n * d * 4 - 1⟩).status = 206
    · by_cases hcl : (T ⟨0, 64 + takeCount rc n * d * 4 - 1⟩).body.length <
        64 + takeCount rc n * d * 4
      · rw [fetch_eq_truncated T rc 64 n d f hstat hlen hp hbit hcs hcl]
      · rw [fetch_eq_success T rc 64 n d f hstat hlen hp hbit hcs hcl]
    · rw [fetch_eq_chunk_status_bad T rc 64 n d f hstat hlen hp hbit hcs]
  · intro dim vs hok
    obtain ⟨n', f', hp', _, hvs⟩ := fetch_ok_inv T rc dim vs hok
    have hpe := hp.symm.trans hp'
    injection hpe with hpe
    injection hpe with e1 hpe
    injection hpe with e2 hpe
    injection hpe with e3 e4
    subst hvs
    refine ⟨e3.symm, ?_, ?_⟩
    · rw [decodeRecords_length, ← e2]
    · rw [← e3]
      exact decodeRecords_mem_length _ _ _ _

/-- Claim C2 counterexample: in the claim scenario `n = 100`, `dOrig = 8`,
`flags = 1`, `requestedCount = 8` the code computes payload range end
`64 + 8*8*4 - 1 = 319`, not 2111 (2111 would require `dOrig = 64`): the
second request issued is `bytes=0-319`. -/
theorem aqed_payload_range_scenario_cex :
    64 + takeCount 8 100 * 8 * 4 - 1 = 319 ∧ (319 : Nat) ≠ 2111 ∧
    (fetch_aqed_sample_vectors demoTransport 8).2 = [headerRangeReq, ⟨0, 319⟩] := by
  exact ⟨by decide, by decide, by decide⟩

/-- Claim C2 witness: the scenario `n = 100`, `dOrig = 8`, `flags = 1`,
`requestedCount = 8`: the payload range end is `64 + 8*8*4 - 1 = 319` and
a successful decode yields exactly 8 vectors of length 8. -/
theorem aqed_payload_range_arithmetic_witness :
    (fetch_aqed_sample_vectors demoTransport 8).2 = [headerRangeReq, ⟨0, 319⟩] ∧
    64 + takeCount 8 100 * 8 * 4 - 1 = 319 ∧
    (∀ dim vs, (fetch_aqed_sample_vectors demoTransport 8).1 = .ok (dim, vs) →
      dim = 8 ∧ vs.length = 8 ∧ ∀ v ∈ vs, v.length = 8) := by
  have h := aqed_payload_range_arithmetic demoTransport 8 100 8 1 (by decide) (by decide)
    (by decide) (by decide) (by decide) (by decide)
  refine ⟨?_, by decide, ?_⟩
  · rw [h.1]
    decide
  · intro dim vs hok
    have h2 := h.2 dim vs hok
    rwa [show takeCount 8 100 = 8 from by decide] at h2

/-- Claim C3: with a declared record count `n ≥ 1`, the clamped count
satisfies `take = min(requestedCount, n)` for `requestedCount ≥ 1` and
`take = 1` for `requestedCount < 1`; and on every successful sampling call
the number of decoded records equals `takeCount requestedCount n` for the
parsed `n`. -/
theorem aqed_request_count_clamping :
    (∀ (rc : Int) (n : Nat), 1 ≤ n →
      ((1 ≤ rc → (takeCount rc n : Int) = min rc (n : Int)) ∧
        (rc < 1 → takeCount rc n = 1))) ∧
    (∀ (T : RangeRequest → HttpResult) (rc : Int) (n d f : Nat),
      parse_aqed_header ((T headerRangeReq).body.take 64) = .ok (64, n, d, f) →
      ∀ dim vs, (fetch_aqed_sample_vectors T rc).1 = .ok (dim, vs) →
        vs.length = takeCount rc n) := by
  constructor
  · intro rc n hn
    constructor
    · intro h1
      simp only [takeCount]
      omega
    · intro h1
      simp only [takeCount]
      omega
  · intro T rc n d f hp dim vs hok
    obtain ⟨n', f', hp', _, hvs⟩ := fetch_ok_inv T rc dim vs hok
    have hpe := hp.symm.trans hp'
    injection hpe with hpe
    injection hpe with e1 hpe
    injection hpe with e2 hpe
    subst hvs
    rw [decodeRecords_length, ← e2]

/-- Claim C3 witness: `requestedCount = 1000` with `n = 100` clamps to
`take = 100`, and `requestedCount = 0` clamps to 1. -/
theorem aqed_request_count_clamping_witness :
    (takeCount 1000 100 : Int) = min 1000 100 ∧ takeCount 0 100 = 1 ∧
    takeCount 1000 100 = 100 := by
  refine ⟨(aqed_request_count_clamping.1 1000 100 (by decide)).1 (by decide),
    (aqed_request_count_clamping.1 0 100 (by decide)).2 (by decide), by decide⟩

/-- Claim C4: if, after a successful header parse with bit 0 set, the
payload response's body is shorter than `byte_len = 64 + take*d*4` bytes,
the sampling call fails with a `FetchError` and returns no vectors at all:
no partial vector list exists. -/
theorem aqed_truncation_atomicity (T : RangeRequest → HttpResult) (rc : Int)
    (n d f : Nat)
    (hstat : (T headerRangeReq).status = 200 ∨ (T headerRangeReq).status = 206)
    (hlen : ¬ (T headerRangeReq).body.length < 64)
    (hp : parse_aqed_header ((T headerRangeReq).body.take 64) = .ok (64, n, d, f))
    (hbit : f.testBit 0 = true)
    (hshort : (T ⟨0, 64 + takeCount rc n * d * 4 - 1⟩).body.length <
      64 + takeCount rc n * d * 4) :
    (∃ m, (fetch_aqed_sample_vectors T rc).1 = .error (.FetchError m)) ∧
    ∀ dvs, (fetch_aqed_sample_vectors T rc).1 ≠ .ok dvs := by
  have hfail : ∃ m, (fetch_aqed_sample_vectors T rc).1 = .error (.FetchError m) := by
    by_cases hcs : (T ⟨0, 64 + takeCount rc n * d * 4 - 1⟩).status = 200 ∨
      (T ⟨0, 64 + takeCount rc n * d * 4 - 1⟩).status = 206
    · exact ⟨_, by rw [fetch_eq_truncated T rc 64 n d f hstat hlen hp hbit hcs hshort]⟩
    · exact ⟨_, by rw [fetch_eq_chunk_status_bad T rc 64 n d f hstat hlen hp hbit hcs]⟩
  refine ⟨hfail, ?_⟩
  intro dvs hok
  obtain ⟨m, hm⟩ := hfail
  rw [hok] at hm
  cases hm

/-- Claim C4 witness: a server that truncates the payload to 100 bytes
makes the call fail with a `FetchError`, with no `.ok` result. -/
theorem aqed_truncation_atomicity_witness :
    (∃ m, (fetch_aqed_sample_vectors truncatedTransport 8).1 = .error (.FetchError m)) ∧
    ∀ dvs, (fetch_aqed_sample_vectors truncatedTransport 8).1 ≠ .ok dvs :=
  aqed_truncation_atomicity truncatedTransport 8 100 8 1 (by decide) (by decide) (by decide)
    (by decide) (by decide)

theorem take4_of_take64 (buf : List Nat) : (buf.take 64).take 4 = buf.take 4 := by
  simp [List.take_take]

/-- Claim C5 counterexample: a served header whose magic, version, `n` and
`dOrig` are all valid but whose flags word is 0 makes the call fail with a
`FormatError`, although none of the claim's four FormatError conditions
(magic mismatch, version ≠ 1, n ≤ 0, dOrig ≤ 0) holds. -/
theorem aqed_failure_conditions_cex :
    (∃ m, (fetch_aqed_sample_vectors noSectionTransport 8).1 = .error (.FormatError m)) ∧
    (noSectionTransport headerRangeReq).body.take 4 = aqedMagic ∧
    readU32 (noSectionTransport headerRangeReq).body 4 = 1 ∧
    readU32 (noSectionTransport headerRangeReq).body 8 ≠ 0 ∧
    readU32 (noSectionTransport headerRangeReq).body 12 ≠ 0 := by
  exact ⟨⟨flagsMsg 0, by decide⟩, by decide, by decide, by decide, by decide⟩

/-- Claim C5 (amended): the sampling call fails with a `FetchError` iff the
header response's status is not 200/206, or its body is shorter than 64
bytes, or — after a successful parse with bit 0 of flags set — the payload
response's status is not 200/206 or its body is shorter than
`64 + take*dOrig*4` bytes; and it fails with a `FormatError` iff the header
response is acceptable (status and length) but the served bytes violate
the container: magic mismatch, version ≠ 1, n = 0, dOrig = 0, a flags word
selecting no positive-dimension section, or bit 0 of flags clear. -/
theorem aqed_failure_conditions_amended (T : RangeRequest → HttpResult) (rc : Int) :
    ((∃ m, (fetch_aqed_sample_vectors T rc).1 = .error (.FetchError m)) ↔
      (¬((T headerRangeReq).status = 200 ∨ (T headerRangeReq).status = 206) ∨
       (T headerRangeReq).body.length < 64 ∨
       (∃ n d f, parse_aqed_header ((T headerRangeReq).body.take 64) = .ok (64, n, d, f) ∧
         f.testBit 0 = true ∧
         (¬((T ⟨0, 64 + takeCount rc n * d * 4 - 1⟩).status = 200 ∨
            (T ⟨0, 64 + takeCount rc n * d * 4 - 1⟩).status = 206) ∨
          (T ⟨0, 64 + takeCount rc n * d * 4 - 1⟩).body.length <
            64 + takeCount rc n * d * 4)))) ∧
    ((∃ m, (fetch_aqed_sample_vectors T rc).1 = .error (.FormatError m)) ↔
      (((T headerRangeReq).status = 200 ∨ (T headerRangeReq).status = 206) ∧
       ¬ (T headerRangeReq).body.length < 64 ∧
       ¬((T headerRangeReq).body.take 4 = aqedMagic ∧
         readU32 (T headerRangeReq).body 4 = 1 ∧
         readU32 (T headerRangeReq).body 8 ≠ 0 ∧
         readU32 (T headerRangeReq).body 12 ≠ 0 ∧
         (readU32 (T headerRangeReq).body 20).testBit 0 = true))) := by
  have hm4 : ((T headerRangeReq).body.take 64).take 4 = (T headerRangeReq).body.take 4 :=
    take4_of_take64 _
  have hr4 : readU32 ((T headerRangeReq).body.take 64) 4 = readU32 (T headerRangeReq).body 4 :=
    readU32_take64 _ 4 (by omega)
  have hr8 : readU32 ((T headerRangeReq).body.take 64) 8 = readU32 (T headerRangeReq).body 8 :=
    readU32_take64 _ 8 (by omega)
  have hr12 : readU32 ((T headerRangeReq).body.take 64) 12 =
      readU32 (T headerRangeReq).body 12 := readU32_take64 _ 12 (by omega)
  have hr20 : readU32 ((T headerRangeReq).body.take 64) 20 =
      readU32 (T headerRangeReq).body 20 := readU32_take64 _ 20 (by omega)
  rcases fetch_outcome_cases T rc with ⟨h1, heq⟩ | ⟨h1, h2, heq⟩ | ⟨h1, h2, m, hpe, heq⟩ |
    ⟨h1, h2, n, d, f, hp, hbf, heq⟩ | ⟨h1, h2, n, d, f, hp, hb, hcs, heq⟩ |
    ⟨h1, h2, n, d, f, hp, hb, hcs, hcl, heq⟩ | ⟨h1, h2, n, d, f, hp, hb, hcs, hcl, heq⟩
  · refine ⟨⟨fun _ => .inl h1, fun _ => ⟨_, by rw [heq]⟩⟩, ?_, ?_⟩
    · rintro ⟨m, hm⟩
      rw [heq] at hm
      cases hm
    · rintro ⟨hst, -⟩
      exact absurd hst h1
  · refine ⟨⟨fun _ => .inr (.inl h2), fun _ => ⟨_, by rw [heq]⟩⟩, ?_, ?_⟩
    · rintro ⟨m, hm⟩
      rw [heq] at hm
      cases hm
    · rintro ⟨-, hlen, -⟩
      exact absurd h2 hlen
  · refine ⟨⟨?_, ?_⟩, fun _ => ⟨h1, h2, fun hc => ?_⟩, fun _ => ⟨m, by rw [heq]⟩⟩
    · rintro ⟨m', hm⟩
      rw [heq] at hm
      cases hm
    · rintro (hst | hlen | ⟨n, d, f, hp, -, -⟩)
      · exact absurd h1 hst
      · exact absurd hlen h2
      · rw [hpe] at hp; cases hp
    · obtain ⟨hmagic, hver, hn, hd, hbit⟩ := hc
      have hok := parse_ok_of_valid ((T headerRangeReq).body.take 64)
        (by simp only [List.length_take]; omega)
        (by rw [hm4]; exact hmagic) (by rw [hr4]; exact hver)
        (by rw [hr8]; exact hn) (by rw [hr12]; exact hd)
        (by rw [hr20]; exact .inl hbit)
      rw [hpe] at hok; cases hok
  · refine ⟨⟨?_, ?_⟩, fun _ => ⟨h1, h2, fun hc => ?_⟩, fun _ => ⟨_, by rw [heq]⟩⟩
    · rintro ⟨m', hm⟩
      rw [heq] at hm
      cases hm
    · rintro (hst | hlen | ⟨n', d', f', hp', hbit', -⟩)
      · exact absurd h1 hst
      · exact absurd hlen h2
      · have hfe := hp.symm.trans hp'
        injection hfe with hfe
        injection hfe with e1 hfe
        injection hfe with e2 hfe
        injection hfe with e3 e4
        rw [← e4] at hbit'
        rw [hbf] at hbit'
        cases hbit'
    · obtain ⟨hmagic, hver, hn, hd, hbit⟩ := hc
      obtain ⟨-, -, -, hf, -, -, -, -, -⟩ := parse_ok_fields _ 64 n d f hp
      rw [hf, hr20, hbit] at hbf
      cases hbf
  · refine ⟨⟨fun _ => .inr (.inr ⟨n, d, f, hp, hb, .inl hcs⟩),
      fun _ => ⟨_, by rw [heq]⟩⟩, ?_, ?_⟩
    · rintro ⟨m', hm⟩
      rw [heq] at hm
      cases hm
    · rintro ⟨-, -, hc⟩
      obtain ⟨-, hn8, hd12, hf, -, hmagic, hver, hn, hd⟩ := parse_ok_fields _ 64 n d f hp
      exact absurd ⟨by rw [← hm4]; exact hmagic, by rw [← hr4]; exact hver,
        by rw [← hr8, ← hn8]; exact hn, by rw [← hr12, ← hd12]; exact hd,
        by rw [← hr20, ← hf]; exact hb⟩ hc
  · refine ⟨⟨fun _ => .inr (.inr ⟨n, d, f, hp, hb, .inr hcl⟩),
      fun _ => ⟨_, by rw [heq]⟩⟩, ?_, ?_⟩
    · rintro ⟨m', hm⟩
      rw [heq] at hm
      cases hm
    · rintro ⟨-, -, hc⟩
      obtain ⟨-, hn8, hd12, hf, -, hmagic, hver, hn, hd⟩ := parse_ok_fields _ 64 n d f hp
      exact absurd ⟨by rw [← hm4]; exact hmagic, by rw [← hr4]; exact hver,
        by rw [← hr8, ← hn8]; exact hn, by rw [← hr12, ← hd12]; exact hd,
        by rw [← hr20, ← hf]; exact hb⟩ hc
  · refine ⟨⟨?_, ?_⟩, ?_, ?_⟩
    · rintro ⟨m', hm⟩
      rw [heq] at hm
      cases hm
    · rintro (hst | hlen | ⟨n', d', f', hp', hbit', hbad⟩)
      · exact absurd h1 hst
      · exact absurd hlen h2
      · have hfe := hp.symm.trans hp'
        injection hfe with hfe
        injection hfe with e1 hfe
        injection hfe with e2 hfe
        injection hfe with e3 e4
        subst e2; subst e3
        rcases hbad with hbad | hbad
        · exact absurd hcs hbad
        · exact absurd hbad hcl
    · rintro ⟨m', hm⟩
      rw [heq] at hm
      cases hm
    · rintro ⟨-, -, hc⟩
      obtain ⟨-, hn8, hd12, hf, -, hmagic, hver, hn, hd⟩ := parse_ok_fields _ 64 n d f hp
      exact absurd ⟨by rw [← hm4]; exact hmagic, by rw [← hr4]; exact hver,
        by rw [← hr8, ← hn8]; exact hn, by rw [← hr12, ← hd12]; exact hd,
        by rw [← hr20, ← hf]; exact hb⟩ hc

/-- Claim C6: for every `k ≥ 1`, decoding a synthetic buffer made of a
valid 64-byte header followed by `k` contiguous records of `d`
little-endian float32 values (given as 32-bit patterns) yields exactly
those `k` vectors bit-exactly and in on-disk record order: decoding starts
at byte offset 64 and advances `d * 4` bytes per record. -/
theorem aqed_decode_roundtrip (hdr : List Nat) (h64 : hdr.length = 64)
    (hvalid : ∃ p, parse_aqed_header hdr = .ok p) (d k : Nat) (hk : 1 ≤ k)
    (vs : List (List Nat)) (hlen : vs.length = k) (hvd : ∀ v ∈ vs, v.length = d)
    (hval : ∀ v ∈ vs, ∀ x ∈ v, x < 4294967296) :
    decodeRecords (hdr ++ encodeVectors vs) 64 d k = vs ∧
    (decodeRecords (hdr ++ encodeVectors vs) 64 d k).length = k := by
  have h := decodeRecords_append_encode d vs hvd hval hdr []
  rw [List.append_nil] at h
  rw [h64, hlen] at h
  exact ⟨h, by rw [h, hlen]⟩

/-- Claim C6 witness: the demo header followed by the 8 encoded demo
records decodes back to exactly the demo records. -/
theorem aqed_decode_roundtrip_witness :
    demoHeader.length = 64 ∧ demoVectors.length = 8 ∧
    decodeRecords (demoHeader ++ encodeVectors demoVectors) 64 8 8 = demoVectors := by
  refine ⟨by decide, by decide, (aqed_decode_roundtrip demoHeader (by decide)
    ⟨(64, 100, 8, 1), by decide⟩ 8 8 (by decide) demoVectors (by decide) (by decide)
    (by decide)).1⟩

/-- Claim C8 counterexample: when the header fetch fails (here HTTP 500),
the sampling call issues exactly one transport request, not two. -/
theorem aqed_two_requests_cex :
    (fetch_aqed_sample_vectors error500Transport 8).2 = [headerRangeReq] ∧
    (fetch_aqed_sample_vectors error500Transport 8).2.length ≠ 2 := by
  exact ⟨by decide, by decide⟩

/-- Claim C8 (amended): every sampling call issues at most two transport
requests, the first always the header range `bytes=0-63`; whenever the
call succeeds it issues exactly two, the second being the payload range
computed from the parsed header; and a second request is issued only after
a successful header parse with bit 0 of flags set — the payload request
never precedes a successful header parse. -/
theorem aqed_request_sequencing (T : RangeRequest → HttpResult) (rc : Int) :
    ((fetch_aqed_sample_vectors T rc).2 = [headerRangeReq] ∨
      ∃ e, (fetch_aqed_sample_vectors T rc).2 = [headerRangeReq, ⟨0, e⟩]) ∧
    ((∃ x, (fetch_aqed_sample_vectors T rc).1 = .ok x) →
      ∃ n d f, parse_aqed_header ((T headerRangeReq).body.take 64) = .ok (64, n, d, f) ∧
        f.testBit 0 = true ∧
        (fetch_aqed_sample_vectors T rc).2 =
          [headerRangeReq, ⟨0, 64 + takeCount rc n * d * 4 - 1⟩]) ∧
    ((fetch_aqed_sample_vectors T rc).2.length = 2 →
      ∃ n d f, parse_aqed_header ((T headerRangeReq).body.take 64) = .ok (64, n, d, f) ∧
        f.testBit 0 = true) := by
  rcases fetch_outcome_cases T rc with ⟨h1, heq⟩ | ⟨h1, h2, heq⟩ | ⟨h1, h2, m, hpe, heq⟩ |
    ⟨h1, h2, n, d, f, hp, hbf, heq⟩ | ⟨h1, h2, n, d, f, hp, hb, hcs, heq⟩ |
    ⟨h1, h2, n, d, f, hp, hb, hcs, hcl, heq⟩ | ⟨h1, h2, n, d, f, hp, hb, hcs, hcl, heq⟩
  · refine ⟨.inl (by rw [heq]), ?_, ?_⟩
    · rintro ⟨x, hx⟩
      rw [heq] at hx
      cases hx
    · intro hlog
      rw [heq] at hlog
      cases hlog
  · refine ⟨.inl (by rw [heq]), ?_, ?_⟩
    · rintro ⟨x, hx⟩
      rw [heq] at hx
      cases hx
    · intro hlog
      rw [heq] at hlog
      cases hlog
  · refine ⟨.inl (by rw [heq]), ?_, ?_⟩
    · rintro ⟨x, hx⟩
      rw [heq] at hx
      cases hx
    · intro hlog
      rw [heq] at hlog
      cases hlog
  · refine ⟨.inl (by rw [heq]), ?_, ?_⟩
    · rintro ⟨x, hx⟩
      rw [heq] at hx
      cases hx
    · intro hlog
      rw [heq] at hlog
      cases hlog
  · refine ⟨.inr ⟨_, by rw [heq]⟩, ?_, fun _ => ⟨n, d, f, hp, hb⟩⟩
    · rintro ⟨x, hx⟩
      rw [heq] at hx
      cases hx
  · refine ⟨.inr ⟨_, by rw [heq]⟩, ?_, fun _ => ⟨n, d, f, hp, hb⟩⟩
    · rintro ⟨x, hx⟩
      rw [heq] at hx
      cases hx
  · exact ⟨.inr ⟨_, by rw [heq]⟩, fun _ => ⟨n, d, f, hp, hb, by rw [heq]⟩,
      fun _ => ⟨n, d, f, hp, hb⟩⟩

/-- Claim C8 witness: the amended statement at the demo transport, and the
two requests it actually issues. -/
theorem aqed_request_sequencing_witness :
    (((fetch_aqed_sample_vectors demoTransport 8).2 = [headerRangeReq] ∨
      ∃ e, (fetch_aqed_sample_vectors demoTransport 8).2 = [headerRangeReq, ⟨0, e⟩]) ∧
    ((∃ x, (fetch_aqed_sample_vectors demoTransport 8).1 = .ok x) →
      ∃ n d f, parse_aqed_header ((demoTransport headerRangeReq).body.take 64) =
          .ok (64, n, d, f) ∧
        f.testBit 0 = true ∧
        (fetch_aqed_sample_vectors demoTransport 8).2 =
          [headerRangeReq, ⟨0, 64 + takeCount 8 n * d * 4 - 1⟩]) ∧
    ((fetch_aqed_sample_vectors demoTransport 8).2.length = 2 →
      ∃ n d f, parse_aqed_header ((demoTransport headerRangeReq).body.take 64) =
          .ok (64, n, d, f) ∧
        f.testBit 0 = true)) ∧
    (fetch_aqed_sample_vectors demoTransport 8).2 = [headerRangeReq, ⟨0, 319⟩] :=
  ⟨aqed_request_sequencing demoTransport 8, by decide⟩

/-- Claim C9: the outcome of the sampling call — result value, error
message and request log alike — depends only on the two response status
codes, the first 64 bytes of the header response body and the first
`byte_len` bytes of the payload response body: two runs whose transport
responses agree on those prefixes and statuses produce identical results,
so extra bytes returned by a full-content 200 response are ignored. -/
theorem aqed_prefix_determinism (T T' : RangeRequest → HttpResult) (rc : Int)
    (hs1 : (T headerRangeReq).status = (T' headerRangeReq).status)
    (hb1 : (T headerRangeReq).body.take 64 = (T' headerRangeReq).body.take 64)
    (h2 : ∀ n d f,
      parse_aqed_header ((T headerRangeReq).body.take 64) = .ok (64, n, d, f) →
      f.testBit 0 = true →
      ((T ⟨0, 64 + takeCount rc n * d * 4 - 1⟩).status =
        (T' ⟨0, 64 + takeCount rc n * d * 4 - 1⟩).status ∧
       (T ⟨0, 64 + takeCount rc n * d * 4 - 1⟩).body.take (64 + takeCount rc n * d * 4) =
        (T' ⟨0, 64 + takeCount rc n * d * 4 - 1⟩).body.take (64 + takeCount rc n * d * 4))) :
    fetch_aqed_sample_vectors T rc = fetch_aqed_sample_vectors T' rc := by
  by_cases h1 : (T headerRangeReq).status = 200 ∨ (T headerRangeReq).status = 206
  case neg =>
    have h1' : ¬((T' headerRangeReq).status = 200 ∨ (T' headerRangeReq).status = 206) := by
      rw [← hs1]; exact h1
    rw [fetch_eq_status_bad T rc h1, fetch_eq_status_bad T' rc h1', hs1]
  case pos =>
    have h1' : (T' headerRangeReq).status = 200 ∨ (T' headerRangeReq).status = 206 := by
      rw [← hs1]; exact h1
    by_cases hl : (T headerRangeReq).body.length < 64
    case pos =>
      have hl' := (length_lt_iff_of_take_eq _ _ 64 hb1).mp hl
      rw [fetch_eq_header_short T rc h1 hl, fetch_eq_header_short T' rc h1' hl']
    case neg =>
      have hl' : ¬ (T' headerRangeReq).body.length < 64 :=
        fun hc => hl ((length_lt_iff_of_take_eq _ _ 64 hb1).mpr hc)
      cases hp : parse_aqed_header ((T headerRangeReq).body.take 64) with
      | error e =>
        have hp' : parse_aqed_header ((T' headerRangeReq).body.take 64) = .error e := by
          rw [← hb1]; exact hp
        rw [fetch_eq_parse_error T rc e h1 hl hp, fetch_eq_parse_error T' rc e h1' hl' hp']
      | ok v =>
        obtain ⟨hs, n, d, f⟩ := v
        obtain ⟨rfl, -, -, -, -, -, -, -, -⟩ := parse_ok_fields _ hs n d f hp
        have hp' : parse_aqed_header ((T' headerRangeReq).body.take 64) =
            .ok (64, n, d, f) := by
          rw [← hb1]; exact hp
        by_cases hbit : f.testBit 0
        case neg =>
          have hbitf : f.testBit 0 = false := eq_false_of_ne_true hbit
          rw [fetch_eq_no_original T rc 64 n d f h1 hl hp hbitf,
            fetch_eq_no_original T' rc 64 n d f h1' hl' hp' hbitf]
        case pos =>
          obtain ⟨hcs_eq, hcb_eq⟩ := h2 n d f hp hbit
          by_cases hcs : (T ⟨0, 64 + takeCount rc n * d * 4 - 1⟩).status = 200 ∨
            (T ⟨0, 64 + takeCount rc n * d * 4 - 1⟩).status = 206
          case neg =>
            have hcs' : ¬((T' ⟨0, 64 + takeCount rc n * d * 4 - 1⟩).status = 200 ∨
                (T' ⟨0, 64 + takeCount rc n * d * 4 - 1⟩).status = 206) := by
              rw [← hcs_eq]; exact hcs
            rw [fetch_eq_chunk_status_bad T rc 64 n d f h1 hl hp hbit hcs,
              fetch_eq_chunk_status_bad T' rc 64 n d f h1' hl' hp' hbit hcs', hcs_eq]
          case pos =>
            have hcs' : (T' ⟨0, 64 + takeCount rc n * d * 4 - 1⟩).status = 200 ∨
                (T' ⟨0, 64 + takeCount rc n * d * 4 - 1⟩).status = 206 := by
              rw [← hcs_eq]; exact hcs
            by_cases hcl : (T ⟨0, 64 + takeCount rc n * d * 4 - 1⟩).body.length <
              64 + takeCount rc n * d * 4
            case pos =>
              have hbeq : (T ⟨0, 64 + takeCount rc n * d * 4 - 1⟩).body =
                  (T' ⟨0, 64 + takeCount rc n * d * 4 - 1⟩).body :=
                eq_of_take_eq_of_length_lt _ _ _ hcb_eq hcl
              have hcl' := (length_lt_iff_of_take_eq _ _ _ hcb_eq).mp hcl
              rw [fetch_eq_truncated T rc 64 n d f h1 hl hp hbit hcs hcl,
                fetch_eq_truncated T' rc 64 n d f h1' hl' hp' hbit hcs' hcl', hbeq]
            case neg =>
              have hcl' : ¬ (T' ⟨0, 64 + takeCount rc n * d * 4 - 1⟩).body.length <
                  64 + takeCount rc n * d * 4 :=
                fun hc => hcl ((length_lt_iff_of_take_eq _ _ _ hcb_eq).mpr hc)
              have hdec : decodeRecords (T ⟨0, 64 + takeCount rc n * d * 4 - 1⟩).body
                    64 d (takeCount rc n) =
                  decodeRecords (T' ⟨0, 64 + takeCount rc n * d * 4 - 1⟩).body
                    64 d (takeCount rc n) := by
                refine decodeRecords_congr_take _ _ (64 + takeCount rc n * d * 4) d hcb_eq
                  (takeCount rc n) 64 ?_
                have hma : takeCount rc n * (d * 4) = takeCount rc n * d * 4 := by
                  rw [Nat.mul_assoc]
                omega
              rw [fetch_eq_success T rc 64 n d f h1 hl hp hbit hcs hcl,
                fetch_eq_success T' rc 64 n d f h1' hl' hp' hbit hcs' hcl', hdec]

/-- Claim C9 witness: the demo transport and a padded variant returning
extra trailing bytes on both responses produce identical results, because
they agree on the statuses and on the decisive body prefixes. -/
theorem aqed_prefix_determinism_witness :
    fetch_aqed_sample_vectors demoTransport 8 =
      fetch_aqed_sample_vectors demoTransportPadded 8 := by
  refine aqed_prefix_determinism demoTransport demoTransportPadded 8 (by decide)
    (by decide) ?_
  intro n d f hp hb
  have hp100 : parse_aqed_header ((demoTransport headerRangeReq).body.take 64) =
      .ok (64, 100, 8, 1) := by decide
  rw [hp100] at hp
  injection hp with hp
  injection hp with e1 hp
  injection hp with e2 hp
  injection hp with e3 e4
  subst e2; subst e3; subst e4
  exact ⟨by decide, by decide⟩

/-- Claim C10: the header fields are decoded as unsigned 32-bit
little-endian integers (all < 2^32); with valid magic/version and bit 0 of
flags set, the parse succeeds iff `n ≠ 0` and `dOrig ≠ 0` — the guards
`n ≤ 0` and `dOrig ≤ 0` reject only the value 0 — and any byte pattern
with the high bit set (value ≥ 2^31) is accepted as a large positive
count. -/
theorem aqed_unsigned_header_fields (buf : List Nat) (h64 : ¬ buf.length < 64)
    (hmagic : buf.take 4 = aqedMagic) (hver : readU32 buf 4 = 1)
    (hbit : (readU32 buf 20).testBit 0 = true) :
    readU32 buf 8 < 4294967296 ∧ readU32 buf 12 < 4294967296 ∧
    readU32 buf 16 < 4294967296 ∧ readU32 buf 20 < 4294967296 ∧
    (parse_aqed_header buf = .ok (64, readU32 buf 8, readU32 buf 12, readU32 buf 20) ↔
      (readU32 buf 8 ≠ 0 ∧ readU32 buf 12 ≠ 0)) ∧
    (2147483648 ≤ readU32 buf 8 → readU32 buf 12 ≠ 0 →
      parse_aqed_header buf = .ok (64, readU32 buf 8, readU32 buf 12, readU32 buf 20)) := by
  refine ⟨readU32_lt buf 8, readU32_lt buf 12, readU32_lt buf 16, readU32_lt buf 20, ?_, ?_⟩
  · constructor
    · intro h
      obtain ⟨-, -, -, -, -, -, -, hn, hd⟩ := parse_ok_fields _ 64 _ _ _ h
      exact ⟨hn, hd⟩
    · rintro ⟨hn, hd⟩
      exact parse_ok_of_valid buf h64 hmagic hver hn hd (.inl hbit)
  · intro hhi hd
    exact parse_ok_of_valid buf h64 hmagic hver (by omega) hd (.inl hbit)

/-- Claim C10 witness: the header whose n field bytes are
`00 00 00 80` parses successfully with n = 2^31 — a large positive count,
not a negative one. -/
theorem aqed_unsigned_header_fields_witness :
    readU32 highBitHeader 8 = 2147483648 ∧
    parse_aqed_header highBitHeader =
      .ok (64, readU32 highBitHeader 8, readU32 highBitHeader 12,
        readU32 highBitHeader 20) := by
  refine ⟨by decide, (aqed_unsigned_header_fields highBitHeader (by decide) (by decide)
    (by decide) (by decide)).2.2.2.2.2 (by decide) (by decide)⟩

/-- Claim C5 witness: at a server that always answers HTTP 500, the call
fails with a FetchError, via the amended characterization. -/
theorem aqed_failure_conditions_amended_witness :
    ∃ m, (fetch_aqed_sample_vectors error500Transport 8).1 = .error (.FetchError m) :=
  (aqed_failure_conditions_amended error500Transport 8).1.mpr (.inl (by decide))

/-- Claim C7 witness: a 404 HTTP-error response is returned (status 404,
body intact) rather than raised, and the result does not depend on the
requested range. -/
theorem http_request_passthrough_witness :
    (http_request headerRangeReq (.httpError 404 [] [1, 2])).status = 404 ∧
    (http_request headerRangeReq (.httpError 404 [] [1, 2])).body = [1, 2] ∧
    http_request headerRangeReq (.httpError 404 [] [1, 2]) =
      http_request ⟨0, 319⟩ (.httpError 404 [] [1, 2]) :=
  ⟨(http_request_passthrough headerRangeReq ⟨0, 319⟩ (.httpError 404 [] [1, 2])).1,
   (http_request_passthrough headerRangeReq ⟨0, 319⟩ (.httpError 404 [] [1, 2])).2.1,
   (http_request_passthrough headerRangeReq ⟨0, 319⟩ (.httpError 404 [] [1, 2])).2.2.2⟩
